import Mathlib

set_option linter.unusedVariables false

/-!
Verification development for the taskorchestrator repository.

The definitions below are a shallow embedding of the Go source:

* `internal/pkg/errors` (error taxonomy, `ClassifyError`),
* `internal/middleware` (`WithRetry`, `calculateBackoff`, `WithGRPCErrorHandling`,
  `ApplyMiddleware`, the registered middleware chain of
  `internal/activities/registry.go`),
* `internal/infrastructure/observability` (the batched `LogRepository` /
  `TaskEventRepository` write/flush/close state machine),
* `internal/infrastructure/config` (`hashError` and the SHA-256 digest it uses).

Machine integers are modelled as `Nat`/`Int` with explicit `% 2^w` where
overflow matters; Go `float64` arithmetic in `calculateBackoff` is modelled as
exact rational arithmetic; fallible calls return an explicit error component.
-/

namespace TaskOrch

/-- Error classification from `internal/pkg/errors` (`ErrorType` in Go). -/
inductive ErrorType where
  | transient
  | permanent
  | timeout
deriving DecidableEq, Repr

/-- An unclassified Go `error`: a gRPC status error or a plain error value.
These are the errors that can appear as the cause of a `*CustomError` in this
model (the middleware chain only ever wraps these). -/
inductive BaseError where
  | grpcStatus (code : Nat) (message : String)
  | raw (message : String)
deriving DecidableEq, Repr

/-- A Go `error` value as seen by the middleware chain: a `*CustomError`
(classified, with type, code, message and optional cause), a gRPC status error,
or a raw unclassified error. -/
inductive GoError where
  | custom (type : ErrorType) (code : String) (message : String) (cause : Option BaseError)
  | grpcStatus (code : Nat) (message : String)
  | raw (message : String)
deriving DecidableEq, Repr

/-- `CustomError.IsTransient` restricted to the classified case: true exactly
when the error is a `*CustomError` of transient type. -/
def isTransientCustom : GoError → Bool
  | .custom t _ _ _ => t == ErrorType.transient
  | _ => false

/-- The abort test of `WithRetry` (part_005, line 478): the Go code stops
retrying exactly when the type assertion `err.(*errors.CustomError)` succeeds
and `IsTransient()` is false.  A raw or gRPC-status error fails the type
assertion, so the loop does not stop on it. -/
def retryStopsOn (e : GoError) : Bool :=
  match e with
  | .custom t _ _ _ => !(t == ErrorType.transient)
  | _ => false

/-- `ClassifyError` from `internal/pkg/errors`: nil and unknown errors default
to permanent, a `*CustomError` keeps its own type. -/
def ClassifyError : Option GoError → ErrorType
  | none => ErrorType.permanent
  | some (.custom t _ _ _) => t
  | some _ => ErrorType.permanent

/-- Numeric values of the `google.golang.org/grpc/codes` constants used by the
middleware. -/
def codeUnknown : Nat := 2
def codeInvalidArgument : Nat := 3
def codeDeadlineExceeded : Nat := 4
def codeNotFound : Nat := 5
def codeAlreadyExists : Nat := 6
def codePermissionDenied : Nat := 7
def codeResourceExhausted : Nat := 8
def codeFailedPrecondition : Nat := 9
def codeAborted : Nat := 10
def codeUnimplemented : Nat := 12
def codeInternal : Nat := 13
def codeUnavailable : Nat := 14

/-- `codes.Code.String()` for the codes that can appear in classified errors. -/
def grpcCodeName (c : Nat) : String :=
  if c = 0 then "OK" else if c = 1 then "Canceled" else if c = 2 then "Unknown"
  else if c = 3 then "InvalidArgument" else if c = 4 then "DeadlineExceeded"
  else if c = 5 then "NotFound" else if c = 6 then "AlreadyExists"
  else if c = 7 then "PermissionDenied" else if c = 8 then "ResourceExhausted"
  else if c = 9 then "FailedPrecondition" else if c = 10 then "Aborted"
  else if c = 11 then "OutOfRange" else if c = 12 then "Unimplemented"
  else if c = 13 then "Internal" else if c = 14 then "Unavailable"
  else if c = 15 then "DataLoss" else if c = 16 then "Unauthenticated"
  else "Code(" ++ toString c ++ ")"

/-- The `transientGRPCCodes` map of `internal/middleware/grpc_error.go`:
Unavailable (14), ResourceExhausted (8), FailedPrecondition (9), Aborted (10),
DeadlineExceeded (4), Internal (13) and Unknown (2) are marked transient. -/
def transientGRPCCodes (c : Nat) : Bool :=
  c == codeUnavailable || c == codeResourceExhausted || c == codeFailedPrecondition ||
  c == codeAborted || c == codeDeadlineExceeded || c == codeInternal || c == codeUnknown

/-- An activity result: an optional output and an optional error, mirroring the
Go `([]byte, error)` pair. -/
abbrev Res (α : Type) := Option α × Option GoError

/-- Execution model of `middleware.ActivityFunc`.  The `Nat` threaded through a
call is the number of invocations of the underlying raw activity performed so
far; an `ActivityFunc` maps that counter to a result together with the updated
counter.  The byte input is constant along the chain and is left implicit;
context cancellation and wall-clock effects are outside this pure model. -/
abbrev ActivityFunc (α : Type) := Nat → Res α × Nat

/-- `middleware.ActivityMiddleware`: a function wrapping an `ActivityFunc`. -/
abbrev ActivityMiddleware (α : Type) := ActivityFunc α → ActivityFunc α

/-- The raw activity at the bottom of the chain: invocation number `n` produces
the result `beh n` prescribed by the behaviour `beh` and bumps the counter. -/
def rawActivity (beh : Nat → Res α) : ActivityFunc α := fun n => (beh n, n + 1)

/-- Result transformation performed by `WithGRPCErrorHandling`
(internal/middleware/grpc_error.go): a gRPC status error is converted into a
transient or permanent `*CustomError` according to `transientGRPCCodes`, with
the original error kept as cause; every other outcome passes through
unchanged. -/
def classifyGRPCResult (r : Res α) : Res α :=
  match r with
  | (out, none) => (out, none)
  | (out, some e) =>
    match e with
    | .grpcStatus c m =>
      if transientGRPCCodes c then
        (none, some (.custom .transient ("GRPC_" ++ grpcCodeName c)
          ("gRPC error (transient): " ++ m) (some (BaseError.grpcStatus c m))))
      else
        (none, some (.custom .permanent ("GRPC_" ++ grpcCodeName c)
          ("gRPC error (permanent): " ++ m) (some (BaseError.grpcStatus c m))))
    | _ => (out, some e)

/-- `middleware.WithGRPCErrorHandling()`: call the wrapped function once and
classify its result. -/
def WithGRPCErrorHandling : ActivityMiddleware α :=
  fun next n =>
    let (r, n') := next n
    (classifyGRPCResult r, n')

/-- `middleware.RetryPolicy`.  Backoff durations are Go `time.Duration`
nanosecond counts (`Int`); the `float64` multiplier is modelled as an exact
rational. -/
structure RetryPolicy where
  maxAttempts : Nat
  initialBackoff : Int
  maxBackoff : Int
  backoffMultiplier : Rat

/-- Go `time.Duration.Milliseconds()`: division by 10^6 truncating toward
zero. -/
def durationMilliseconds (d : Int) : Int := Int.tdiv d 1000000

/-- Go `float64` to `int64` conversion: truncation toward zero. -/
def ratTrunc (q : Rat) : Int := if 0 ≤ q then ⌊q⌋ else ⌈q⌉

/-- `middleware.calculateBackoff`: exponential backoff in milliseconds capped
at `MaxBackoff`, converted back to a whole-millisecond duration (the result is
in nanoseconds, as in Go). -/
def calculateBackoff (attempt : Nat) (policy : RetryPolicy) : Int :=
  let backoff : Rat :=
    (durationMilliseconds policy.initialBackoff : Rat) * policy.backoffMultiplier ^ attempt
  let maxMs : Rat := (durationMilliseconds policy.maxBackoff : Rat)
  let capped : Rat := if backoff > maxMs then maxMs else backoff
  ratTrunc capped * 1000000

/-- The loop of `middleware.WithRetry` (part_005, lines 469-499).  `fuel` is
the number of attempts still allowed, `attIdx` the 0-indexed number of the
current attempt, `n` the raw-invocation counter and `lastErr` Go's `lastErr`
variable.  Besides the result and the final counter, the model returns the
list of backoff durations waited between attempts.  On success return at once;
on an error stopped by `retryStopsOn` return it at once; otherwise remember it
and, when attempts remain, wait `calculateBackoff attIdx` and try again. -/
def retryLoop (policy : RetryPolicy) (next : ActivityFunc α) :
    Nat → Nat → Nat → Option GoError → Res α × Nat × List Int
  | 0, _, n, lastErr => ((none, lastErr), n, [])
  | fuel + 1, attIdx, n, _ =>
    let ((out, err), n') := next n
    match err with
    | none => ((out, none), n', [])
    | some e =>
      if retryStopsOn e then ((none, some e), n', [])
      else
        match fuel with
        | 0 => ((none, some e), n', [])
        | f + 1 =>
          let w := calculateBackoff attIdx policy
          let (res, nFin, ws) := retryLoop policy next (f + 1) (attIdx + 1) n' (some e)
          (res, nFin, w :: ws)

/-- `middleware.WithRetry`: run the retry loop for `MaxAttempts` attempts. -/
def WithRetry (policy : RetryPolicy) : ActivityMiddleware α :=
  fun next n =>
    let (res, nFin, _) := retryLoop policy next policy.maxAttempts 0 n none
    (res, nFin)

/-- The sequence of backoff waits performed by one `WithRetry` execution. -/
def retryWaits (policy : RetryPolicy) (next : ActivityFunc α) (n : Nat) : List Int :=
  (retryLoop policy next policy.maxAttempts 0 n none).2.2

/-- `middleware.WithLogging` on the execution path: it invokes the wrapped
function exactly once and passes its result through unchanged (the log records
it emits are side effects outside this pure model). -/
def WithLogging : ActivityMiddleware α := fun next n => next n

/-- `middleware.WithTimeout` on the path where the wrapped function finishes
before the deadline: the result is passed through unchanged.  The firing
deadline is a concurrency effect outside this pure model. -/
def WithTimeout : ActivityMiddleware α := fun next n => next n

/-- `middleware.ApplyMiddleware`: the Go loop walks the middleware list from
the last element to the first, rewrapping the activity each time, which is a
right fold. -/
def ApplyMiddleware (activity : ActivityFunc α) (middlewares : List (ActivityMiddleware α)) :
    ActivityFunc α :=
  middlewares.foldr (fun m acc => m acc) activity

/-- The middleware chain registered for every activity in
`internal/activities/registry.go`: logging, timeout, gRPC error handling,
retry, applied to the raw activity by `ApplyMiddleware`. -/
def registeredPipeline (policy : RetryPolicy) (activity : ActivityFunc α) : ActivityFunc α :=
  ApplyMiddleware activity
    [WithLogging, WithTimeout, WithGRPCErrorHandling, WithRetry policy]

/-- Number of raw-activity invocations performed by one top-level call of a
wrapped activity, starting from a fresh counter. -/
def callCount (f : ActivityFunc α) : Nat := (f 0).2

/-- Result of one top-level call of a wrapped activity. -/
def callResult (f : ActivityFunc α) : Res α := (f 0).1

/-- The SQLite handle of a repository: committed rows plus a closed flag.
`db.Begin()` on a closed handle fails. -/
structure DBState (ρ : Type) where
  rows : List ρ
  closed : Bool
deriving DecidableEq, Repr

/-- State shared by `LogRepository` and `TaskEventRepository`
(internal/infrastructure/observability): the database handle, the pending
batch guarded by the mutex, the configured batch size, and the flags set by
`Close` (ticker stopped, background flush worker stopped). -/
structure RepoState (ρ : Type) where
  db : DBState ρ
  batch : List ρ
  batchSize : Nat
  tickerStopped : Bool
  workerStopped : Bool
deriving DecidableEq, Repr

/-- Fault injection for one `FlushBatch` call: whether `db.Begin`,
`tx.Prepare`, the `stmt.Exec` at a given batch index, or `tx.Commit` fails.
These stand for the fallible external SQLite calls. -/
structure FlushFaults where
  beginFails : Bool
  prepareFails : Bool
  insertFailAt : Option Nat
  commitFails : Bool
deriving DecidableEq, Repr

/-- A fault assignment under which every SQLite call succeeds. -/
def noFaults : FlushFaults :=
  { beginFails := false, prepareFails := false, insertFailAt := none, commitFails := false }

/-- The insert loop of `FlushBatch` succeeds exactly when no injected insert
fault falls inside the batch. -/
def insertAllOk (failAt : Option Nat) (batch : List ρ) : Bool :=
  match failAt with
  | none => true
  | some k => decide (batch.length ≤ k)

/-- `FlushBatch` of both repositories: under the mutex, an empty batch is a
no-op; otherwise begin a transaction (fails if the handle is closed), prepare
the insert statement, insert every batched row, and commit.  Any failure
returns an error with the transaction rolled back — committed rows and the
pending batch are unchanged.  Only after a successful commit is the batch
cleared and the rows appended to the store. -/
def FlushBatch (faults : FlushFaults) (s : RepoState ρ) : RepoState ρ × Option String :=
  if s.batch.isEmpty then (s, none)
  else if s.db.closed then (s, some "failed to begin transaction")
  else if faults.beginFails then (s, some "failed to begin transaction")
  else if faults.prepareFails then (s, some "failed to prepare statement")
  else if !(insertAllOk faults.insertFailAt s.batch) then (s, some "failed to insert")
  else if faults.commitFails then (s, some "failed to commit transaction")
  else ({ s with db := { s.db with rows := s.db.rows ++ s.batch }, batch := [] }, none)

/-- The write operation of both repositories (`WriteLog` / `WriteEvent`): a
nil record is rejected; otherwise the record is appended to the pending batch
under the mutex and, if the batch has reached `batchSize`, a synchronous
`FlushBatch` is triggered.  The write performs no closed-state check. -/
def WriteRecord (nilMsg : String) (faults : FlushFaults) (s : RepoState ρ) (rec : Option ρ) :
    RepoState ρ × Option String :=
  match rec with
  | none => (s, some nilMsg)
  | some r =>
    let s1 := { s with batch := s.batch ++ [r] }
    if s.batchSize ≤ s1.batch.length then FlushBatch faults s1 else (s1, none)

/-- `Close` of both repositories: stop the ticker, signal the worker (whose
final flush and the explicit `FlushBatch` that follows are collapsed into the
one modelled flush, both running the same code), and close the database handle
only when that flush succeeded. -/
def CloseRepo (faults : FlushFaults) (s : RepoState ρ) : RepoState ρ × Option String :=
  let s1 := { s with tickerStopped := true, workerStopped := true }
  let (s2, e) := FlushBatch faults s1
  match e with
  | some msg => (s2, some msg)
  | none => ({ s2 with db := { s2.db with closed := true } }, none)

/-- `observability.LogRecord`, with the fields persisted by the log
repository.  Timestamps are abstract instants (`Nat`). -/
structure LogRecord where
  timestamp : Nat
  level : String
  traceID : String
  spanID : String
  orchestrationID : String
  activity : String
  message : String
  durationMs : Int
  inputHash : String
  outputHash : String
  errorMessage : String
  errorHash : String
deriving DecidableEq, Repr

/-- `observability.TaskEvent`, with the fields persisted by the task event
repository. -/
structure TaskEvent where
  timestamp : Nat
  traceID : String
  spanID : String
  orchestrationID : String
  eventType : String
  activity : String
  payload : String
deriving DecidableEq, Repr

/-- `LogRepository.WriteLog`: rejects nil with "log record cannot be nil". -/
def WriteLog : FlushFaults → RepoState LogRecord → Option LogRecord →
    RepoState LogRecord × Option String :=
  WriteRecord "log record cannot be nil"

/-- `TaskEventRepository.WriteEvent`: rejects nil with "event cannot be nil". -/
def WriteEvent : FlushFaults → RepoState TaskEvent → Option TaskEvent →
    RepoState TaskEvent × Option String :=
  WriteRecord "event cannot be nil"

/-- Sequential fault-free writes of a list of (non-nil) records. -/
def writeAll (s : RepoState ρ) (recs : List ρ) : RepoState ρ :=
  recs.foldl (fun st r => (WriteRecord "" noFaults st (some r)).1) s

/-- `LogRepository.QueryByTraceID`: `SELECT ... WHERE trace_id = ? ORDER BY
timestamp ASC`, modelled as a stable sort by timestamp of the committed rows
with the given trace id, in commit order. -/
def QueryByTraceID (s : RepoState LogRecord) (traceID : String) : List LogRecord :=
  List.insertionSort (fun a b => a.timestamp ≤ b.timestamp)
    (s.db.rows.filter (fun r => r.traceID == traceID))

/-- A fresh repository as built by `NewLogRepository` / `NewTaskEventRepository`:
empty store, empty batch, running ticker and worker. -/
def newRepo (batchSize : Nat) : RepoState ρ :=
  { db := { rows := [], closed := false }, batch := [], batchSize := batchSize,
    tickerStopped := false, workerStopped := false }

/-! ### SHA-256 (crypto/sha256) and `hashError` (internal/infrastructure/config)

`hashError` hashes only the error code before the first ":" with SHA-256 and
keeps the first 8 digest bytes, hex encoded.  The hash function is embedded in
full; 32-bit words are `Nat` reduced modulo `2^32`. -/

/-- Modulus of 32-bit words. -/
def pow32 : Nat := 4294967296

/-- Right rotation of a 32-bit word. -/
def rotr (n x : Nat) : Nat := (x >>> n) ||| ((x <<< (32 - n)) % pow32)

/-- SHA-256 lower-case sigma 0 (word-schedule mixing). -/
def sigmaS0 (x : Nat) : Nat := rotr 7 x ^^^ (rotr 18 x ^^^ (x >>> 3))

/-- SHA-256 lower-case sigma 1 (word-schedule mixing). -/
def sigmaS1 (x : Nat) : Nat := rotr 17 x ^^^ (rotr 19 x ^^^ (x >>> 10))

/-- SHA-256 upper-case sigma 0 (round mixing of `a`). -/
def sigmaB0 (x : Nat) : Nat := rotr 2 x ^^^ (rotr 13 x ^^^ rotr 22 x)

/-- SHA-256 upper-case sigma 1 (round mixing of `e`). -/
def sigmaB1 (x : Nat) : Nat := rotr 6 x ^^^ (rotr 11 x ^^^ rotr 25 x)

/-- SHA-256 choice function; the complement is an xor with the 32-bit mask. -/
def chFn (x y z : Nat) : Nat := (x &&& y) ^^^ ((x ^^^ 4294967295) &&& z)

/-- SHA-256 majority function. -/
def majFn (x y z : Nat) : Nat := (x &&& y) ^^^ (x &&& z) ^^^ (y &&& z)

/-- The 64 SHA-256 round constants of FIPS 180-4, as decimal word values. -/
def sha256K : List Nat :=
  [1116352408, 1899447441, 3049323471, 3921009573,
   961987163, 1508970993, 2453635748, 2870763221,
   3624381080, 310598401, 607225278, 1426881987,
   1925078388, 2162078206, 2614888103, 3248222580,
   3835390401, 4022224774, 264347078, 604807628,
   770255983, 1249150122, 1555081692, 1996064986,
   2554220882, 2821834349, 2952996808, 3210313671,
   3336571891, 3584528711, 113926993, 338241895,
   666307205, 773529912, 1294757372, 1396182291,
   1695183700, 1986661051, 2177026350, 2456956037,
   2730485921, 2820302411, 3259730800, 3345764771,
   3516065817, 3600352804, 4094571909, 275423344,
   430227734, 506948616, 659060556, 883997877,
   958139571, 1322822218, 1537002063, 1747873779,
   1955562222, 2024104815, 2227730452, 2361852424,
   2428436474, 2756734187, 3204031479, 3329325298]

/-- The eight working variables / hash words of SHA-256. -/
structure Hash8 where
  a : Nat
  b : Nat
  c : Nat
  d : Nat
  e : Nat
  f : Nat
  g : Nat
  h : Nat
deriving DecidableEq, Repr

/-- The SHA-256 initial hash value (FIPS 180-4), as decimal word values. -/
def initH : Hash8 :=
  { a := 1779033703, b := 3144134277, c := 1013904242, d := 2773480762,
    e := 1359893119, f := 2600822924, g := 528734635, h := 1541459225 }

/-- One SHA-256 compression round. -/
def sha256Round (k w : Nat) (s : Hash8) : Hash8 :=
  let t1 := (s.h + sigmaB1 s.e + chFn s.e s.f s.g + k + w) % pow32
  let t2 := (sigmaB0 s.a + majFn s.a s.b s.c) % pow32
  { a := (t1 + t2) % pow32, b := s.a, c := s.b, d := s.c,
    e := (s.d + t1) % pow32, f := s.e, g := s.f, h := s.g }

/-- Fold the 64 rounds over the round constants and the message schedule. -/
def roundsLoop : List Nat → List Nat → Hash8 → Hash8
  | k :: ks, w :: ws, s => roundsLoop ks ws (sha256Round k w s)
  | _, _, s => s

/-- Big-endian decoding of a byte list into 32-bit words. -/
def bytesToWords : List Nat → List Nat
  | b0 :: b1 :: b2 :: b3 :: rest =>
    (b0 * 16777216 + b1 * 65536 + b2 * 256 + b3) :: bytesToWords rest
  | _ => []

/-- Extend the 16-word message schedule by `fuel` further words. -/
def extendSchedule (ws : List Nat) : Nat → List Nat
  | 0 => ws
  | fuel + 1 =>
    let i := ws.length
    let w := (sigmaS1 (ws.getD (i - 2) 0) + ws.getD (i - 7) 0 +
              sigmaS0 (ws.getD (i - 15) 0) + ws.getD (i - 16) 0) % pow32
    extendSchedule (ws ++ [w]) fuel

/-- One SHA-256 block compression: build the 64-word schedule, run the rounds,
and add the result into the chaining value. -/
def compressBlock (hsh : Hash8) (block : List Nat) : Hash8 :=
  let ws := extendSchedule (bytesToWords block) 48
  let s := roundsLoop sha256K ws hsh
  ⟨(hsh.a + s.a) % pow32, (hsh.b + s.b) % pow32, (hsh.c + s.c) % pow32,
   (hsh.d + s.d) % pow32, (hsh.e + s.e) % pow32, (hsh.f + s.f) % pow32,
   (hsh.g + s.g) % pow32, (hsh.h + s.h) % pow32⟩

/-- Big-endian 64-bit encoding of the message bit length. -/
def be64 (n : Nat) : List Nat :=
  [(n >>> 56) % 256, (n >>> 48) % 256, (n >>> 40) % 256, (n >>> 32) % 256,
   (n >>> 24) % 256, (n >>> 16) % 256, (n >>> 8) % 256, n % 256]

/-- SHA-256 padding: a 0x80 byte, zeros up to 56 mod 64, and the bit length. -/
def sha256pad (msg : List Nat) : List Nat :=
  let len := msg.length
  let zeros := (120 - ((len + 1) % 64)) % 64
  msg ++ [128] ++ List.replicate zeros 0 ++ be64 (8 * len)

/-- Split a byte list into `n` consecutive 64-byte blocks. -/
def chunksOf64 : List Nat → Nat → List (List Nat)
  | _, 0 => []
  | bytes, n + 1 => bytes.take 64 :: chunksOf64 (bytes.drop 64) n

/-- Big-endian bytes of one 32-bit word. -/
def wordBytes (w : Nat) : List Nat :=
  [(w >>> 24) % 256, (w >>> 16) % 256, (w >>> 8) % 256, w % 256]

/-- The 32 digest bytes of a final hash value. -/
def hash8Bytes (s : Hash8) : List Nat :=
  wordBytes s.a ++ wordBytes s.b ++ wordBytes s.c ++ wordBytes s.d ++
  wordBytes s.e ++ wordBytes s.f ++ wordBytes s.g ++ wordBytes s.h

/-- `sha256.Sum256`: digest of a byte list. -/
def sha256 (msg : List Nat) : List Nat :=
  let padded := sha256pad msg
  hash8Bytes ((chunksOf64 padded (padded.length / 64)).foldl compressBlock initH)

/-- UTF-8 encoding of one character (Go `[]byte(string)` conversion). -/
def utf8Enc (c : Char) : List Nat :=
  let n := c.toNat
  if n < 128 then [n]
  else if n < 2048 then [192 + n / 64, 128 + n % 64]
  else if n < 65536 then [224 + n / 4096, 128 + (n / 64) % 64, 128 + n % 64]
  else [240 + n / 262144, 128 + (n / 4096) % 64, 128 + (n / 64) % 64, 128 + n % 64]

/-- UTF-8 bytes of a string. -/
def strBytes (s : String) : List Nat := (s.data.map utf8Enc).flatten

/-- The lowercase hex digit character of a value below 16, as used by
`hex.EncodeToString`: 48 is the code of `'0'`, 87 + 10 the code of `'a'`. -/
def hexDigitChar (n : Nat) : Char :=
  if n < 10 then Char.ofNat (48 + n) else Char.ofNat (87 + n)

/-- Two lowercase hex characters of one byte. -/
def byteToHex (b : Nat) : List Char := [hexDigitChar (b / 16), hexDigitChar (b % 16)]

/-- `hex.EncodeToString` over a byte list. -/
def hexEncode (bs : List Nat) : String := String.mk ((bs.map byteToHex).flatten)

/-- The leading code token of an error message:
`strings.SplitN(errMsg, ":", 2)[0]`, i.e. everything before the first ":"
(the whole message when there is no ":"). -/
def errorCodeOf (errMsg : String) : String :=
  String.mk (errMsg.data.takeWhile (fun c => c ≠ ':'))

/-- `config.hashError`: empty messages hash to ""; otherwise the SHA-256
digest of the leading code token, truncated to its first 8 bytes and hex
encoded (16 characters). -/
def hashError (errMsg : String) : String :=
  if errMsg = "" then ""
  else hexEncode ((sha256 (strBytes (errorCodeOf errMsg))).take 8)

/-- A sample log record used in concrete instantiations. -/
def sampleLog : LogRecord :=
  { timestamp := 1, level := "info", traceID := "trace-1", spanID := "",
    orchestrationID := "orch-1", activity := "payment:charge", message := "m1",
    durationMs := 5, inputHash := "", outputHash := "", errorMessage := "", errorHash := "" }

/-- A second sample log record with a later timestamp and the same trace id. -/
def sampleLog2 : LogRecord :=
  { timestamp := 2, level := "error", traceID := "trace-1", spanID := "",
    orchestrationID := "orch-1", activity := "payment:charge", message := "m2",
    durationMs := 7, inputHash := "", outputHash := "", errorMessage := "E: x", errorHash := "" }

/-- A sample task event used in concrete instantiations. -/
def sampleEvent : TaskEvent :=
  { timestamp := 1, traceID := "trace-1", spanID := "", orchestrationID := "orch-1",
    eventType := "started", activity := "payment:charge", payload := "p" }

/-- A log repository that has been closed without incident. -/
def closedLogRepo : RepoState LogRecord := (CloseRepo noFaults (newRepo 10)).1

/-- A task event repository that has been closed without incident. -/
def closedEventRepo : RepoState TaskEvent := (CloseRepo noFaults (newRepo 10)).1

/-- The kind assigned by the gRPC classification stage to a status error with
code `c`, read back through `ClassifyError`. -/
def grpcClassifiedKind (c : Nat) (m : String) : ErrorType :=
  ClassifyError (classifyGRPCResult ((none : Option Unit), some (GoError.grpcStatus c m))).2

/-- Backoff as the specification's sentence prescribes it, for comparison with
`calculateBackoff`: `min(initial_backoff × multiplier^n, max_backoff)` over
exact durations (nanoseconds). -/
def specBackoff (attempt : Nat) (policy : RetryPolicy) : Rat :=
  min ((policy.initialBackoff : Rat) * policy.backoffMultiplier ^ attempt)
    ((policy.maxBackoff : Rat))

/-- A concrete retry policy: 3 attempts, 100ms initial backoff, 30s cap,
multiplier 2 (the shape of `DefaultRetryPolicy(3)`). -/
def p3 : RetryPolicy :=
  { maxAttempts := 3, initialBackoff := 100000000, maxBackoff := 30000000000,
    backoffMultiplier := 2 }

/-- A concrete retry policy with fractional multiplier 1.5. -/
def p15 : RetryPolicy :=
  { maxAttempts := 4, initialBackoff := 100000000, maxBackoff := 30000000000,
    backoffMultiplier := 3 / 2 }

/-- A unit of work that always fails with a permanent classified error. -/
def behPermW : Nat → Res Nat :=
  fun _ => (none, some (GoError.custom ErrorType.permanent "E_PERM" "bad input" none))

/-- A unit of work that always fails with a timeout-kind classified error. -/
def behTimeoutW : Nat → Res Nat :=
  fun _ => (none, some (GoError.custom ErrorType.timeout "ACTIVITY_TIMEOUT" "timed out" none))

/-- A unit of work that always fails with a transient classified error. -/
def behTransW : Nat → Res Nat :=
  fun _ => (none, some (GoError.custom ErrorType.transient "E_NET" "unavailable" none))

/-- A unit of work that fails transiently twice and then succeeds. -/
def behFlakyW : Nat → Res Nat :=
  fun i =>
    if i < 2 then (none, some (GoError.custom ErrorType.transient "E_NET" "unavailable" none))
    else (some 7, none)

/-- A unit of work that always fails with a raw, unclassified error. -/
def behRawW : Nat → Res Nat := fun _ => (none, some (GoError.raw "disk failure"))

/-- A unit of work that always fails with a gRPC status error whose code the
classification stage maps to permanent. -/
def behGrpcPermW : Nat → Res Nat :=
  fun _ => (none, some (GoError.grpcStatus codeInvalidArgument "invalid input"))

/-- Big-endian base-256 value of a byte list (proof machinery for the digest
pigeonhole argument). -/
def encodeBytes : List Nat → Nat
  | [] => 0
  | b :: t => b * 256 ^ t.length + encodeBytes t

/-- The family of error codes `"A"`, `"AA"`, `"AAA"`, ... — pairwise distinct
leading code tokens containing no separator. -/
def aCode (n : Nat) : String := String.mk (List.replicate (n + 1) 'A')

/-- The truncated 8-byte digest that `hashError` hex-encodes for `aCode n`. -/
def codeDigest (n : Nat) : List Nat := (sha256 (strBytes (aCode n))).take 8

end TaskOrch

namespace TaskOrch

/-! ### Theorems -/

/-- C2: for every repository state and every failure of the transactional
flush (failed begin, prepare, individual insert, or commit), `FlushBatch`
either persists the entire pending batch and clears it, or returns an error
with the committed rows and the pending batch both unchanged — there are no
partial visible writes. -/
theorem FlushBatch_atomic {ρ : Type} (faults : FlushFaults) (s : RepoState ρ) :
    ((FlushBatch faults s).2 = none ∧
      (FlushBatch faults s).1.db.rows = s.db.rows ++ s.batch ∧
      (FlushBatch faults s).1.batch = []) ∨
    ((FlushBatch faults s).2.isSome ∧ (FlushBatch faults s).1 = s) := by
  unfold FlushBatch
  split_ifs with h1 h2 h3 h4 h5 h6
  · left
    refine ⟨rfl, ?_, ?_⟩ <;> simp [List.isEmpty_iff.mp h1]
  · right; exact ⟨rfl, rfl⟩
  · right; exact ⟨rfl, rfl⟩
  · right; exact ⟨rfl, rfl⟩
  · right; exact ⟨rfl, rfl⟩
  · right; exact ⟨rfl, rfl⟩
  · left; exact ⟨rfl, rfl, rfl⟩

/-- C10: writing a nil record (`WriteLog(nil)` / `WriteEvent(nil)`) returns an
error and leaves the repository state — pending batch and committed rows —
unchanged. -/
theorem write_nil_rejected (faults : FlushFaults)
    (sl : RepoState LogRecord) (se : RepoState TaskEvent) :
    WriteLog faults sl none = (sl, some "log record cannot be nil") ∧
    WriteEvent faults se none = (se, some "event cannot be nil") :=
  ⟨rfl, rfl⟩

/-- C3 (divergence witness): after a clean `Close` the handle is closed and
the worker stopped, yet a subsequent write with a non-full batch returns no
error and leaves the record buffered in memory; only a write that fills the
batch surfaces an error, because the triggered flush finds the closed handle.
The buffered record can never be persisted: flushing it fails. -/
theorem write_after_close_silently_buffers :
    closedLogRepo.db.closed = true ∧ closedLogRepo.workerStopped = true ∧
    WriteLog noFaults closedLogRepo (some sampleLog) =
      ({ closedLogRepo with batch := [sampleLog] }, none) ∧
    (FlushBatch noFaults { closedLogRepo with batch := [sampleLog] }).2 =
      some "failed to begin transaction" ∧
    WriteEvent noFaults closedEventRepo (some sampleEvent) =
      ({ closedEventRepo with batch := [sampleEvent] }, none) := by
  exact ⟨rfl, rfl, rfl, rfl, rfl⟩

/-- Writing one record into a batch with room to spare buffers it and touches
nothing else. -/
theorem writeRecord_below_threshold (nilMsg : String) (faults : FlushFaults)
    {ρ : Type} (s : RepoState ρ) (r : ρ) (h : s.batch.length + 1 < s.batchSize) :
    WriteRecord nilMsg faults s (some r) = ({ s with batch := s.batch ++ [r] }, none) := by
  simp only [WriteRecord, List.length_append, List.length_cons, List.length_nil]
  rw [if_neg (by omega)]

/-- Writing a record that fills the batch hands the appended batch to
`FlushBatch`. -/
theorem writeRecord_at_threshold (nilMsg : String) (faults : FlushFaults)
    {ρ : Type} (s : RepoState ρ) (r : ρ) (h : s.batchSize ≤ s.batch.length + 1) :
    WriteRecord nilMsg faults s (some r) = FlushBatch faults { s with batch := s.batch ++ [r] } := by
  simp only [WriteRecord, List.length_append, List.length_cons, List.length_nil]
  rw [if_pos (by omega)]

/-- Sequential writes that stay strictly below the batch size only grow the
pending batch. -/
theorem writeAll_no_flush {ρ : Type} (recs : List ρ) :
    ∀ s : RepoState ρ, s.batch.length + recs.length < s.batchSize →
      writeAll s recs = { s with batch := s.batch ++ recs } := by
  induction recs with
  | nil => intro s h; simp [writeAll]
  | cons r rest ih =>
    intro s h
    have hstep : WriteRecord "" noFaults s (some r) = ({ s with batch := s.batch ++ [r] }, none) := by
      apply writeRecord_below_threshold
      simp only [List.length_cons] at h
      omega
    have : writeAll s (r :: rest) = writeAll { s with batch := s.batch ++ [r] } rest := by
      simp [writeAll, hstep]
    rw [this, ih]
    · simp
    · simp only [List.length_append, List.length_cons, List.length_nil]
      simp only [List.length_cons] at h
      omega

/-- A fault-free flush on an open handle always succeeds, committing the whole
batch. -/
theorem flushBatch_success {ρ : Type} (s : RepoState ρ) (h : s.db.closed = false) :
    FlushBatch noFaults s =
      ({ s with db := { s.db with rows := s.db.rows ++ s.batch }, batch := [] }, none) := by
  unfold FlushBatch
  split_ifs with h1 <;>
    simp_all [noFaults, insertAllOk]
  · obtain ⟨db, batch, B, t, w⟩ := s
    obtain ⟨rows, closed⟩ := db
    simp_all

/-- C8: a write appends the record to the pending batch and triggers a
synchronous flush exactly when the batch has reached `batchSize` (below the
threshold nothing is persisted and no error is returned); writing fewer than
`batchSize` records into a fresh repository buffers exactly those records, an
explicit flush then persists exactly them, and — timestamps being
nondecreasing in insertion order — they are retrieved by trace id in insertion
order. -/
theorem write_batches_and_flush_persists :
    (∀ (faults : FlushFaults) (s : RepoState LogRecord) (r : LogRecord),
        s.batch.length + 1 < s.batchSize →
        WriteLog faults s (some r) = ({ s with batch := s.batch ++ [r] }, none)) ∧
    (∀ (faults : FlushFaults) (s : RepoState LogRecord) (r : LogRecord),
        s.batchSize ≤ s.batch.length + 1 →
        WriteLog faults s (some r) = FlushBatch faults { s with batch := s.batch ++ [r] }) ∧
    (∀ (recs : List LogRecord) (B : Nat), recs.length < B →
        writeAll (newRepo B) recs = { newRepo B with batch := recs } ∧
        FlushBatch noFaults (writeAll (newRepo B) recs) =
          ({ newRepo B with db := { rows := recs, closed := false } }, none) ∧
        (List.Sorted (fun a b : LogRecord => a.timestamp ≤ b.timestamp) recs →
          ∀ t, QueryByTraceID (FlushBatch noFaults (writeAll (newRepo B) recs)).1 t =
            recs.filter (fun r => r.traceID == t))) := by
  refine ⟨?_, ?_, ?_⟩
  · intro faults s r h
    exact writeRecord_below_threshold _ faults s r h
  · intro faults s r h
    exact writeRecord_at_threshold _ faults s r h
  · intro recs B hlen
    have hw : writeAll (newRepo B) recs = { newRepo B with batch := recs } := by
      have := writeAll_no_flush recs (newRepo B) (by simp [newRepo]; omega)
      simpa [newRepo] using this
    have hflush : FlushBatch noFaults (writeAll (newRepo B) recs) =
        ({ newRepo B with db := { rows := recs, closed := false } }, none) := by
      rw [hw, flushBatch_success _ (by simp [newRepo])]
      simp [newRepo]
    refine ⟨hw, hflush, ?_⟩
    intro hsorted t
    rw [hflush]
    unfold QueryByTraceID
    simp only [newRepo]
    exact List.Sorted.insertionSort_eq (List.Sorted.filter _ hsorted)

/-- C8 witness: two records written into a fresh repository of batch size 10
stay unpersisted, an explicit flush commits exactly them, and the trace query
returns them in insertion order. -/
theorem write_batches_and_flush_persists_witness :
    WriteLog noFaults (newRepo 10) (some sampleLog) =
      ({ newRepo 10 with batch := [sampleLog] }, none) ∧
    FlushBatch noFaults (writeAll (newRepo 10) [sampleLog, sampleLog2]) =
      ({ newRepo 10 with db := { rows := [sampleLog, sampleLog2], closed := false } }, none) ∧
    QueryByTraceID (FlushBatch noFaults (writeAll (newRepo 10) [sampleLog, sampleLog2])).1 "trace-1" =
      List.filter (fun r => r.traceID == "trace-1") [sampleLog, sampleLog2] := by
  refine ⟨?_, ?_, ?_⟩
  · exact write_batches_and_flush_persists.1 noFaults (newRepo 10) sampleLog (by decide)
  · exact (write_batches_and_flush_persists.2.2 [sampleLog, sampleLog2] 10 (by decide)).2.1
  · exact (write_batches_and_flush_persists.2.2 [sampleLog, sampleLog2] 10 (by decide)).2.2
      (by decide) "trace-1"

/-- One retry attempt that succeeds returns the output at once. -/
theorem retryLoop_ok (policy : RetryPolicy) (next : ActivityFunc α)
    (fuel attIdx n : Nat) (lastErr : Option GoError) (out : Option α) (n' : Nat)
    (hn : next n = ((out, none), n')) :
    retryLoop policy next (fuel + 1) attIdx n lastErr = ((out, none), n', []) := by
  simp [retryLoop, hn]

/-- One retry attempt that fails with an error on which the loop stops (a
classified non-transient error) returns that error at once. -/
theorem retryLoop_stop (policy : RetryPolicy) (next : ActivityFunc α)
    (fuel attIdx n : Nat) (lastErr : Option GoError) (out : Option α) (e : GoError) (n' : Nat)
    (hn : next n = ((out, some e), n')) (hs : retryStopsOn e = true) :
    retryLoop policy next (fuel + 1) attIdx n lastErr = ((none, some e), n', []) := by
  simp [retryLoop, hn, hs]

/-- The last allowed attempt failing with a retryable error returns that
error without waiting. -/
theorem retryLoop_last (policy : RetryPolicy) (next : ActivityFunc α)
    (attIdx n : Nat) (lastErr : Option GoError) (out : Option α) (e : GoError) (n' : Nat)
    (hn : next n = ((out, some e), n')) (hs : retryStopsOn e = false) :
    retryLoop policy next 1 attIdx n lastErr = ((none, some e), n', []) := by
  simp [retryLoop, hn, hs]

/-- A non-final attempt failing with a retryable error waits the backoff for
the current attempt index and continues the loop. -/
theorem retryLoop_retry (policy : RetryPolicy) (next : ActivityFunc α)
    (f attIdx n : Nat) (lastErr : Option GoError) (out : Option α) (e : GoError) (n' : Nat)
    (hn : next n = ((out, some e), n')) (hs : retryStopsOn e = false) :
    retryLoop policy next (f + 2) attIdx n lastErr =
      ((retryLoop policy next (f + 1) (attIdx + 1) n' (some e)).1,
       (retryLoop policy next (f + 1) (attIdx + 1) n' (some e)).2.1,
       calculateBackoff attIdx policy :: (retryLoop policy next (f + 1) (attIdx + 1) n' (some e)).2.2) := by
  conv_lhs => rw [retryLoop.eq_def]
  simp [hn, hs]

/-- When every attempt fails with an error the loop does not stop on, the loop
exhausts all attempts, invokes the raw activity once per attempt, and returns
the error of the last attempt. -/
theorem retryLoop_exhaust (policy : RetryPolicy) (beh : Nat → Res α) :
    ∀ (fuel n attIdx : Nat) (lastErr : Option GoError), 1 ≤ fuel →
      (∀ i, i < fuel → ∃ e, (beh (n + i)).2 = some e ∧ retryStopsOn e = false) →
      (retryLoop policy (rawActivity beh) fuel attIdx n lastErr).1 = (none, (beh (n + fuel - 1)).2) ∧
      (retryLoop policy (rawActivity beh) fuel attIdx n lastErr).2.1 = n + fuel := by
  intro fuel
  induction fuel with
  | zero => intro n attIdx lastErr h; omega
  | succ f ih =>
    intro n attIdx lastErr _ hbeh
    obtain ⟨e, he, hs⟩ := hbeh 0 (by omega)
    rw [Nat.add_zero] at he
    have hn : rawActivity beh n = (((beh n).1, some e), n + 1) := by
      unfold rawActivity
      rw [← he]
    cases f with
    | zero =>
      rw [retryLoop_last policy _ attIdx n lastErr _ e (n + 1) hn hs]
      refine ⟨?_, by simp⟩
      have hidx : n + (0 + 1) - 1 = n := by omega
      rw [hidx, he]
    | succ f' =>
      rw [retryLoop_retry policy _ f' attIdx n lastErr _ e (n + 1) hn hs]
      have hrec := ih (n + 1) (attIdx + 1) (some e) (by omega)
        (fun i hi => by
          obtain ⟨e', he', hs'⟩ := hbeh (i + 1) (by omega)
          have hsh : n + 1 + i = n + (i + 1) := by omega
          exact ⟨e', by rw [hsh]; exact he', hs'⟩)
      refine ⟨?_, ?_⟩
      · rw [hrec.1]
        have hidx : n + 1 + (f' + 1) - 1 = n + (f' + 1 + 1) - 1 := by omega
        rw [hidx]
      · rw [hrec.2]
        omega

/-- When the first `k` attempts fail with retryable errors and attempt `k`
(0-indexed) succeeds, the loop returns that success after `k + 1` raw
invocations. -/
theorem retryLoop_success_after (policy : RetryPolicy) (beh : Nat → Res α) :
    ∀ (k fuel n attIdx : Nat) (lastErr : Option GoError), k < fuel →
      (∀ i, i < k → ∃ e, (beh (n + i)).2 = some e ∧ retryStopsOn e = false) →
      (beh (n + k)).2 = none →
      (retryLoop policy (rawActivity beh) fuel attIdx n lastErr).1 = ((beh (n + k)).1, none) ∧
      (retryLoop policy (rawActivity beh) fuel attIdx n lastErr).2.1 = n + k + 1 := by
  intro k
  induction k with
  | zero =>
    intro fuel n attIdx lastErr hk _ hok
    rw [Nat.add_zero] at hok
    obtain ⟨f, rfl⟩ : ∃ f, fuel = f + 1 := ⟨fuel - 1, by omega⟩
    have hn : rawActivity beh n = (((beh n).1, none), n + 1) := by
      unfold rawActivity
      rw [← hok]
    rw [retryLoop_ok policy _ f attIdx n lastErr _ (n + 1) hn]
    exact ⟨rfl, rfl⟩
  | succ k ih =>
    intro fuel n attIdx lastErr hk hfail hok
    obtain ⟨e, he, hs⟩ := hfail 0 (by omega)
    rw [Nat.add_zero] at he
    have hn : rawActivity beh n = (((beh n).1, some e), n + 1) := by
      unfold rawActivity
      rw [← he]
    obtain ⟨f', rfl⟩ : ∃ f', fuel = f' + 2 := ⟨fuel - 2, by omega⟩
    rw [retryLoop_retry policy _ f' attIdx n lastErr _ e (n + 1) hn hs]
    have hshk : n + 1 + k = n + (k + 1) := by omega
    have hrec := ih (f' + 1) (n + 1) (attIdx + 1) (some e) (by omega)
      (fun i hi => by
        obtain ⟨e', he', hs'⟩ := hfail (i + 1) (by omega)
        have hsh : n + 1 + i = n + (i + 1) := by omega
        exact ⟨e', by rw [hsh]; exact he', hs'⟩)
      (by rw [hshk]; exact hok)
    refine ⟨?_, ?_⟩
    · rw [hrec.1, hshk]
    · rw [hrec.2]
      omega

/-- The error of a wrapped call that stops the loop immediately surfaces with
exactly one raw invocation made. -/
theorem withRetry_stop_once (policy : RetryPolicy) (beh : Nat → Res α) (e : GoError)
    (hM : 1 ≤ policy.maxAttempts) (he : (beh 0).2 = some e) (hs : retryStopsOn e = true) :
    WithRetry policy (rawActivity beh) 0 = ((none, some e), 1) := by
  obtain ⟨M, hMA⟩ : ∃ M, policy.maxAttempts = M + 1 := ⟨policy.maxAttempts - 1, by omega⟩
  have hn : rawActivity beh 0 = (((beh 0).1, some e), 1) := by
    unfold rawActivity
    rw [← he]
  simp only [WithRetry, hMA]
  rw [retryLoop_stop policy _ M 0 0 none _ e 1 hn hs]

/-- `WithRetry` is the pair of result and final counter of the retry loop. -/
theorem withRetry_proj (policy : RetryPolicy) (next : ActivityFunc α) (n : Nat) :
    WithRetry policy next n =
      ((retryLoop policy next policy.maxAttempts 0 n none).1,
       (retryLoop policy next policy.maxAttempts 0 n none).2.1) := rfl

/-- C1 (amended): a permanent classified failure aborts the retry executor
after exactly one raw invocation; so does a timeout-kind classified failure
(the loop stops on every classified non-transient error, so timeout is treated
like permanent, not like transient); transient classified failures are retried
until `max_attempts` attempts have been made, surfacing the last error, or
until an attempt succeeds. -/
theorem withRetry_kind_policy (α : Type) :
    (∀ (policy : RetryPolicy) (beh : Nat → Res α) (c m : String) (cause : Option BaseError),
        1 ≤ policy.maxAttempts →
        (beh 0).2 = some (GoError.custom ErrorType.permanent c m cause) →
        WithRetry policy (rawActivity beh) 0 =
          ((none, some (GoError.custom ErrorType.permanent c m cause)), 1)) ∧
    (∀ (policy : RetryPolicy) (beh : Nat → Res α) (c m : String) (cause : Option BaseError),
        1 ≤ policy.maxAttempts →
        (beh 0).2 = some (GoError.custom ErrorType.timeout c m cause) →
        WithRetry policy (rawActivity beh) 0 =
          ((none, some (GoError.custom ErrorType.timeout c m cause)), 1)) ∧
    (∀ (policy : RetryPolicy) (beh : Nat → Res α), 1 ≤ policy.maxAttempts →
        (∀ i, i < policy.maxAttempts →
          ∃ c m cause, (beh i).2 = some (GoError.custom ErrorType.transient c m cause)) →
        (WithRetry policy (rawActivity beh) 0).1 = (none, (beh (policy.maxAttempts - 1)).2) ∧
        (WithRetry policy (rawActivity beh) 0).2 = policy.maxAttempts) ∧
    (∀ (policy : RetryPolicy) (beh : Nat → Res α) (k : Nat), k < policy.maxAttempts →
        (∀ i, i < k →
          ∃ c m cause, (beh i).2 = some (GoError.custom ErrorType.transient c m cause)) →
        (beh k).2 = none →
        (WithRetry policy (rawActivity beh) 0).1 = ((beh k).1, none) ∧
        (WithRetry policy (rawActivity beh) 0).2 = k + 1) := by
  refine ⟨?_, ?_, ?_, ?_⟩
  · intro policy beh c m cause hM he
    exact withRetry_stop_once policy beh _ hM he rfl
  · intro policy beh c m cause hM he
    exact withRetry_stop_once policy beh _ hM he rfl
  · intro policy beh hM hbeh
    have h := retryLoop_exhaust policy beh policy.maxAttempts 0 0 none hM
      (fun i hi => by
        obtain ⟨c, m, cause, he⟩ := hbeh i (by omega)
        exact ⟨GoError.custom ErrorType.transient c m cause, by simpa using he, rfl⟩)
    rw [withRetry_proj]
    simpa using h
  · intro policy beh k hk hbeh hok
    have h := retryLoop_success_after policy beh k policy.maxAttempts 0 0 none hk
      (fun i hi => by
        obtain ⟨c, m, cause, he⟩ := hbeh i (by omega)
        exact ⟨GoError.custom ErrorType.transient c m cause, by simpa using he, rfl⟩)
      (by simpa using hok)
    rw [withRetry_proj]
    simpa using h

/-- C1 witness: at a concrete 3-attempt policy, a permanent failure and a
timeout failure each make exactly one raw invocation; an always-transient
failure makes three; two transient failures followed by success surface the
successful output. -/
theorem withRetry_kind_policy_witness :
    WithRetry p3 (rawActivity behPermW) 0 =
      ((none, some (GoError.custom ErrorType.permanent "E_PERM" "bad input" none)), 1) ∧
    WithRetry p3 (rawActivity behTimeoutW) 0 =
      ((none, some (GoError.custom ErrorType.timeout "ACTIVITY_TIMEOUT" "timed out" none)), 1) ∧
    (WithRetry p3 (rawActivity behTransW) 0).2 = 3 ∧
    (WithRetry p3 (rawActivity behFlakyW) 0).1 = (some 7, none) := by
  refine ⟨?_, ?_, ?_, ?_⟩
  · exact (withRetry_kind_policy Nat).1 p3 behPermW "E_PERM" "bad input" none
      (by decide) rfl
  · exact (withRetry_kind_policy Nat).2.1 p3 behTimeoutW "ACTIVITY_TIMEOUT" "timed out" none
      (by decide) rfl
  · exact ((withRetry_kind_policy Nat).2.2.1 p3 behTransW (by decide)
      (fun i _ => ⟨"E_NET", "unavailable", none, rfl⟩)).2
  · exact ((withRetry_kind_policy Nat).2.2.2 p3 behFlakyW 2 (by decide)
      (fun i hi => ⟨"E_NET", "unavailable", none, by unfold behFlakyW; rw [if_pos hi]⟩)
      rfl).1

/-- C1 counterexample: a timeout-kind classified failure is not retried — with
`max_attempts = 3` and every attempt failing with a timeout-kind error, the
retry executor performs exactly one raw invocation instead of three. -/
theorem timeout_kind_not_retried_cx :
    (WithRetry p3 (rawActivity behTimeoutW) 0).2 = 1 ∧ p3.maxAttempts = 3 := by
  exact ⟨rfl, rfl⟩

/-- C4 (amended): the classification stage passes classified and raw
non-protocol errors through unchanged (preserving an existing kind), and
`ClassifyError` defaults a raw error to permanent — but the retry executor
never consults `ClassifyError`: it stops only on classified non-transient
errors, so a raw error is retried up to `max_attempts` times. -/
theorem raw_default_and_passthrough (α : Type) :
    (∀ (out : Option α) (t : ErrorType) (code msg : String) (cause : Option BaseError),
        classifyGRPCResult (out, some (GoError.custom t code msg cause)) =
          (out, some (GoError.custom t code msg cause))) ∧
    (∀ (out : Option α) (m : String),
        classifyGRPCResult (out, some (GoError.raw m)) = (out, some (GoError.raw m))) ∧
    (∀ m : String, ClassifyError (some (GoError.raw m)) = ErrorType.permanent) ∧
    (∀ (t : ErrorType) (code msg : String) (cause : Option BaseError),
        ClassifyError (some (GoError.custom t code msg cause)) = t) ∧
    (∀ (policy : RetryPolicy) (beh : Nat → Res α), 1 ≤ policy.maxAttempts →
        (∀ i, i < policy.maxAttempts → ∃ m, (beh i).2 = some (GoError.raw m)) →
        (WithRetry policy (rawActivity beh) 0).2 = policy.maxAttempts) := by
  refine ⟨fun out t code msg cause => rfl, fun out m => rfl, fun m => rfl,
    fun t code msg cause => rfl, ?_⟩
  intro policy beh hM hbeh
  have h := retryLoop_exhaust policy beh policy.maxAttempts 0 0 none hM
    (fun i hi => by
      obtain ⟨m, he⟩ := hbeh i (by omega)
      exact ⟨GoError.raw m, by simpa using he, rfl⟩)
  rw [withRetry_proj]
  simpa using h.2

/-- C4 witness: at the concrete 3-attempt policy, a raw error passes the
classification stage unchanged and is retried three times. -/
theorem raw_default_and_passthrough_witness :
    classifyGRPCResult ((none : Option Nat), some (GoError.raw "boom")) =
      (none, some (GoError.raw "boom")) ∧
    (WithRetry p3 (rawActivity behRawW) 0).2 = p3.maxAttempts := by
  exact ⟨(raw_default_and_passthrough Nat).2.1 none "boom",
    (raw_default_and_passthrough Nat).2.2.2.2 p3 behRawW (by decide)
      (fun i _ => ⟨"disk failure", rfl⟩)⟩

/-- C4 counterexample: a raw (unclassified) error is retried by the executor —
three raw invocations under `max_attempts = 3` — even though `ClassifyError`
would classify it permanent; the claim says such an error is never retried. -/
theorem raw_error_retried_cx :
    (WithRetry p3 (rawActivity behRawW) 0).2 = 3 ∧
    ClassifyError (some (GoError.raw "disk failure")) = ErrorType.permanent ∧
    p3.maxAttempts = 3 := by
  exact ⟨rfl, rfl, rfl⟩

/-- The waits performed by the retry loop are the backoffs of consecutive
attempt indices starting at the loop's initial index. -/
theorem retryLoop_waits (policy : RetryPolicy) (next : ActivityFunc α) :
    ∀ (fuel attIdx n : Nat) (lastErr : Option GoError), ∃ t,
      (retryLoop policy next fuel attIdx n lastErr).2.2 =
        (List.range t).map (fun i => calculateBackoff (attIdx + i) policy) := by
  intro fuel
  induction fuel with
  | zero =>
    intro attIdx n lastErr
    exact ⟨0, by simp [retryLoop]⟩
  | succ f ih =>
    intro attIdx n lastErr
    rcases hnx : next n with ⟨⟨out, err⟩, n'⟩
    cases err with
    | none =>
      exact ⟨0, by rw [retryLoop_ok policy next f attIdx n lastErr out n' hnx]; simp⟩
    | some e =>
      by_cases hs : retryStopsOn e
      · exact ⟨0, by rw [retryLoop_stop policy next f attIdx n lastErr out e n' hnx hs]; simp⟩
      · have hs' : retryStopsOn e = false := by simpa using hs
        cases f with
        | zero =>
          exact ⟨0, by rw [retryLoop_last policy next attIdx n lastErr out e n' hnx hs']; simp⟩
        | succ f' =>
          obtain ⟨t, ht⟩ := ih (attIdx + 1) n' (some e)
          refine ⟨t + 1, ?_⟩
          rw [retryLoop_retry policy next f' attIdx n lastErr out e n' hnx hs']
          show calculateBackoff attIdx policy ::
              (retryLoop policy next (f' + 1) (attIdx + 1) n' (some e)).2.2 = _
          rw [ht, List.range_succ_eq_map, List.map_cons, List.map_map]
          refine congrArg₂ _ (by rw [Nat.add_zero]) ?_
          refine List.map_congr_left (fun i _ => ?_)
          show calculateBackoff (attIdx + 1 + i) policy = calculateBackoff (attIdx + (i + 1)) policy
          have : attIdx + 1 + i = attIdx + (i + 1) := by omega

          rw [this]

/-- C5 (amended): `calculateBackoff` for attempt `n` (0-indexed) equals
`min(initial_backoff × multiplier^n, max_backoff)` computed over whole
milliseconds — the policy durations are first truncated to integer
milliseconds and the capped product is truncated to an integer millisecond
count before conversion back to a duration; every wait performed by the retry
loop is `calculateBackoff` of its 0-indexed attempt number. -/
theorem calculateBackoff_min_truncated (α : Type) :
    (∀ (attempt : Nat) (policy : RetryPolicy),
        calculateBackoff attempt policy =
          ratTrunc (min ((durationMilliseconds policy.initialBackoff : Rat) *
                policy.backoffMultiplier ^ attempt)
              ((durationMilliseconds policy.maxBackoff : Rat))) * 1000000) ∧
    (∀ (policy : RetryPolicy) (next : ActivityFunc α) (n : Nat), ∃ t,
        retryWaits policy next n =
          (List.range t).map (fun i => calculateBackoff i policy)) := by
  constructor
  · intro attempt policy
    simp only [calculateBackoff]
    congr 2
    split_ifs with h
    · exact (min_eq_right (le_of_lt h)).symm
    · exact (min_eq_left (not_lt.mp h)).symm
  · intro policy next n
    obtain ⟨t, ht⟩ := retryLoop_waits policy next policy.maxAttempts 0 n none
    exact ⟨t, by simpa [retryWaits] using ht⟩

/-- C5 counterexample: with initial backoff 100ms and multiplier 1.5, the
backoff for attempt 3 is the truncated 337ms, not the exact minimum 337.5ms
that the claim's formula prescribes. -/
theorem backoff_truncated_cx :
    calculateBackoff 3 p15 = 337000000 ∧ specBackoff 3 p15 = 337500000 ∧
    ((calculateBackoff 3 p15 : Rat) ≠ specBackoff 3 p15) := by
  have hms1 : durationMilliseconds p15.initialBackoff = 100 := by decide
  have hms2 : durationMilliseconds p15.maxBackoff = 30000 := by decide
  have hmul : ((durationMilliseconds p15.initialBackoff : Int) : Rat) *
      p15.backoffMultiplier ^ 3 = 675 / 2 := by
    rw [hms1]
    norm_num [p15]
  have hcalc : calculateBackoff 3 p15 = 337000000 := by
    simp only [calculateBackoff, hmul, hms2]
    rw [if_neg (by norm_num)]
    have htr : ratTrunc (675 / 2 : Rat) = 337 := by
      unfold ratTrunc
      rw [if_pos (by norm_num), Int.floor_eq_iff]
      norm_num
    rw [htr]
    norm_num
  have hspec : specBackoff 3 p15 = 337500000 := by
    unfold specBackoff
    have h1 : ((p15.initialBackoff : Int) : Rat) * p15.backoffMultiplier ^ 3 = 337500000 := by
      norm_num [p15]
    rw [h1, min_eq_left (by norm_num [p15])]
  refine ⟨hcalc, hspec, ?_⟩
  rw [hcalc, hspec]
  norm_num

/-- C6 (amended): the gRPC classification stage marks a status error transient
exactly when its code is ResourceExhausted (8), FailedPrecondition (9),
Aborted (10), DeadlineExceeded (4), Unavailable (14), Internal (13) — or
Unknown (2), which the code also treats as transient; every other code,
including InvalidArgument, NotFound, AlreadyExists and PermissionDenied, is
classified permanent. -/
theorem grpc_code_taxonomy :
    (∀ (c : Nat) (m : String),
        (grpcClassifiedKind c m = ErrorType.transient ↔
          (c = codeResourceExhausted ∨ c = codeFailedPrecondition ∨ c = codeAborted ∨
           c = codeDeadlineExceeded ∨ c = codeUnavailable ∨ c = codeInternal ∨
           c = codeUnknown)) ∧
        (grpcClassifiedKind c m = ErrorType.transient ∨
         grpcClassifiedKind c m = ErrorType.permanent)) ∧
    (∀ m : String,
        grpcClassifiedKind codeInvalidArgument m = ErrorType.permanent ∧
        grpcClassifiedKind codeNotFound m = ErrorType.permanent ∧
        grpcClassifiedKind codeAlreadyExists m = ErrorType.permanent ∧
        grpcClassifiedKind codePermissionDenied m = ErrorType.permanent) := by
  have hkind : ∀ (c : Nat) (m : String), grpcClassifiedKind c m =
      (if transientGRPCCodes c then ErrorType.transient else ErrorType.permanent) := by
    intro c m
    by_cases h : transientGRPCCodes c <;>
      simp [grpcClassifiedKind, classifyGRPCResult, ClassifyError, h]
  have hiff : ∀ c : Nat, transientGRPCCodes c = true ↔
      (c = codeResourceExhausted ∨ c = codeFailedPrecondition ∨ c = codeAborted ∨
       c = codeDeadlineExceeded ∨ c = codeUnavailable ∨ c = codeInternal ∨
       c = codeUnknown) := by
    intro c
    simp only [transientGRPCCodes, Bool.or_eq_true, beq_iff_eq]
    tauto
  refine ⟨fun c m => ⟨?_, ?_⟩, fun m => ?_⟩
  · rw [hkind, ← hiff c]
    by_cases h : transientGRPCCodes c <;> simp [h]
  · rw [hkind]
    by_cases h : transientGRPCCodes c <;> simp [h]
  · refine ⟨?_, ?_, ?_, ?_⟩ <;> rw [hkind] <;> rfl

/-- C6 counterexample: the Unknown status code (2) is classified transient by
the code, yet it is not among the six codes the claim lists as the exact
transient set. -/
theorem unknown_code_transient_cx :
    grpcClassifiedKind codeUnknown "unexpected" = ErrorType.transient ∧
    ¬(codeUnknown = codeResourceExhausted ∨ codeUnknown = codeFailedPrecondition ∨
      codeUnknown = codeAborted ∨ codeUnknown = codeDeadlineExceeded ∨
      codeUnknown = codeUnavailable ∨ codeUnknown = codeInternal) := by
  exact ⟨rfl, by decide⟩

/-- C7 (amended): `ApplyMiddleware` composes the listed stages
innermost-last — the registered pipeline is logging outermost, then timeout,
then gRPC classification, then retry innermost invoking the raw activity, and
timeout thereby bounds one full invocation including all retry attempts — but
because retry is innermost, the classification stage transforms only the
result that leaves the retry loop: retry itself examines raw, unclassified
errors. -/
theorem pipeline_composition (α : Type) :
    (∀ (f : ActivityFunc α) (m1 m2 m3 m4 : ActivityMiddleware α),
        ApplyMiddleware f [m1, m2, m3, m4] = m1 (m2 (m3 (m4 f)))) ∧
    (∀ (policy : RetryPolicy) (f : ActivityFunc α),
        registeredPipeline policy f =
          WithLogging (WithTimeout (WithGRPCErrorHandling (WithRetry policy f)))) ∧
    (∀ (policy : RetryPolicy) (f : ActivityFunc α) (n : Nat),
        WithGRPCErrorHandling (WithRetry policy f) n =
          (classifyGRPCResult (WithRetry policy f n).1, (WithRetry policy f n).2)) :=
  ⟨fun _ _ _ _ _ => rfl, fun _ _ => rfl, fun _ _ _ => rfl⟩

/-- C7 counterexample: for a unit of work failing with a permanently-classified
gRPC status (InvalidArgument), the registered pipeline — retry innermost —
invokes the raw activity 3 times, whereas classification reaching retry before
it sees the error (retry wrapped around the classification stage) would abort
after 1 invocation; so the classification stage does not run before retry sees
the error. -/
theorem classification_after_retry_cx :
    (registeredPipeline p3 (rawActivity behGrpcPermW) 0).2 = 3 ∧
    (WithRetry p3 (WithGRPCErrorHandling (rawActivity behGrpcPermW)) 0).2 = 1 ∧
    grpcClassifiedKind codeInvalidArgument "invalid input" = ErrorType.permanent := by
  exact ⟨rfl, rfl, rfl⟩

/-- A predicate holding at the replicated element keeps the whole replicated
list under `takeWhile`. -/
theorem takeWhile_replicate_pos {α : Type} (p : α → Bool) (a : α) (hp : p a = true) :
    ∀ k, List.takeWhile p (List.replicate k a) = List.replicate k a := by
  intro k
  induction k with
  | zero => rfl
  | succ k ih => simp [List.replicate_succ, List.takeWhile_cons, hp, ih]

/-- `aCode n` contains no separator, so it is its own leading code token. -/
theorem errorCodeOf_aCode (n : Nat) : errorCodeOf (aCode n) = aCode n := by
  unfold errorCodeOf aCode
  congr 1
  exact takeWhile_replicate_pos _ 'A' (by decide) (n + 1)

/-- The codes `aCode n` are nonempty. -/
theorem aCode_ne_empty (n : Nat) : aCode n ≠ "" := by
  unfold aCode
  intro h
  have h2 : List.replicate (n + 1) 'A' = ([] : List Char) := congrArg String.data h
  have h3 := congrArg List.length h2
  simp at h3

/-- Distinct indices give distinct codes (their lengths differ). -/
theorem aCode_ne_of_ne {i j : Nat} (h : i ≠ j) : aCode i ≠ aCode j := by
  unfold aCode
  intro he
  have h2 : List.replicate (i + 1) 'A' = List.replicate (j + 1) 'A' :=
    congrArg String.data he
  have h3 := congrArg List.length h2
  simp at h3
  omega

/-- `hashError` of `aCode n` is the hex encoding of its truncated digest. -/
theorem hashError_aCode (n : Nat) : hashError (aCode n) = hexEncode (codeDigest n) := by
  unfold hashError
  rw [if_neg (aCode_ne_empty n), errorCodeOf_aCode]
  rfl

/-- The SHA-256 digest has 32 bytes. -/
theorem sha256_length (msg : List Nat) : (sha256 msg).length = 32 := by
  simp [sha256, hash8Bytes, wordBytes]

/-- Every SHA-256 digest byte is below 256. -/
theorem sha256_bytes_lt (msg : List Nat) : ∀ b ∈ sha256 msg, b < 256 := by
  intro b hb
  simp [sha256, hash8Bytes, wordBytes] at hb
  omega

/-- The truncated digest has 8 bytes. -/
theorem codeDigest_length (n : Nat) : (codeDigest n).length = 8 := by
  simp [codeDigest, List.length_take, sha256_length]

/-- Every truncated digest byte is below 256. -/
theorem codeDigest_lt (n : Nat) : ∀ b ∈ codeDigest n, b < 256 := by
  intro b hb
  exact sha256_bytes_lt _ b (List.take_subset _ _ hb)

/-- A byte list's base-256 value is below `256 ^ length`. -/
theorem encodeBytes_lt_pow : ∀ l : List Nat, (∀ b ∈ l, b < 256) →
    encodeBytes l < 256 ^ l.length := by
  intro l
  induction l with
  | nil => intro _; simp [encodeBytes]
  | cons b t ih =>
    intro hb
    have hbb : b < 256 := hb b (by simp)
    have hte := ih (fun x hx => hb x (by simp [hx]))
    simp only [encodeBytes, List.length_cons]
    calc b * 256 ^ t.length + encodeBytes t
        < b * 256 ^ t.length + 256 ^ t.length := by omega
      _ = (b + 1) * 256 ^ t.length := by ring
      _ ≤ 256 * 256 ^ t.length := Nat.mul_le_mul_right _ (by omega)
      _ = 256 ^ (t.length + 1) := by ring

/-- Base-256 values determine byte lists of equal length with in-range
bytes. -/
theorem encodeBytes_inj : ∀ l1 l2 : List Nat, l1.length = l2.length →
    (∀ b ∈ l1, b < 256) → (∀ b ∈ l2, b < 256) →
    encodeBytes l1 = encodeBytes l2 → l1 = l2 := by
  intro l1
  induction l1 with
  | nil =>
    intro l2 hlen _ _ _
    cases l2 with
    | nil => rfl
    | cons b t => simp at hlen
  | cons b1 t1 ih =>
    intro l2 hlen hb1 hb2 henc
    cases l2 with
    | nil => simp at hlen
    | cons b2 t2 =>
      simp only [List.length_cons] at hlen
      have hlen' : t1.length = t2.length := by omega
      simp only [encodeBytes, hlen'] at henc
      have he1 : encodeBytes t1 < 256 ^ t2.length := by
        rw [← hlen']
        exact encodeBytes_lt_pow t1 (fun x hx => hb1 x (by simp [hx]))
      have he2 : encodeBytes t2 < 256 ^ t2.length :=
        encodeBytes_lt_pow t2 (fun x hx => hb2 x (by simp [hx]))
      have hP : 0 < 256 ^ t2.length := pow_pos (by norm_num) _
      have hmod : encodeBytes t1 = encodeBytes t2 := by
        have h1 : (b1 * 256 ^ t2.length + encodeBytes t1) % 256 ^ t2.length = encodeBytes t1 := by
          rw [Nat.mul_comm b1 (256 ^ t2.length), Nat.mul_add_mod, Nat.mod_eq_of_lt he1]
        have h2 : (b2 * 256 ^ t2.length + encodeBytes t2) % 256 ^ t2.length = encodeBytes t2 := by
          rw [Nat.mul_comm b2 (256 ^ t2.length), Nat.mul_add_mod, Nat.mod_eq_of_lt he2]
        rw [← h1, ← h2, henc]
      have hb : b1 = b2 := by
        have hsum := henc
        rw [hmod] at hsum
        exact Nat.eq_of_mul_eq_mul_right hP (Nat.add_right_cancel hsum)
      rw [hb, ih t2 hlen' (fun x hx => hb1 x (by simp [hx]))
        (fun x hx => hb2 x (by simp [hx])) hmod]

/-- Pigeonhole: among the distinct codes `aCode 0, aCode 1, ...` two have the
same truncated 8-byte digest, since there are only `256^8` such digests. -/
theorem codeDigest_collision : ∃ i j : Nat, i ≠ j ∧ codeDigest i = codeDigest j := by
  have hmaps : ∀ n ∈ Finset.range (256 ^ 8 + 1),
      encodeBytes (codeDigest n) ∈ Finset.range (256 ^ 8) := by
    intro n _
    rw [Finset.mem_range]
    have h := encodeBytes_lt_pow (codeDigest n) (codeDigest_lt n)
    rwa [codeDigest_length] at h
  have hcard : (Finset.range (256 ^ 8)).card < (Finset.range (256 ^ 8 + 1)).card := by
    simp
  obtain ⟨i, hi, j, hj, hne, heq⟩ :=
    Finset.exists_ne_map_eq_of_card_lt_of_maps_to hcard hmaps
  exact ⟨i, j, hne, encodeBytes_inj _ _
    (by rw [codeDigest_length, codeDigest_length]) (codeDigest_lt i) (codeDigest_lt j) heq⟩

/-- C9 (amended): messages sharing a leading code token always receive the
same grouping hash — in particular the two PAYMENT_FAILED example messages do —
and the two distinct example codes hash differently; but distinct leading
codes cannot produce distinct hashes in general (see the counterexample): the
separation is practical, not universal. -/
theorem hashError_groups_by_code :
    (∀ m1 m2 : String, m1 ≠ "" → m2 ≠ "" → errorCodeOf m1 = errorCodeOf m2 →
        hashError m1 = hashError m2) ∧
    hashError "PAYMENT_FAILED: timeout" = hashError "PAYMENT_FAILED: network_error" ∧
    hashError "PAYMENT_FAILED: timeout" ≠ hashError "INVENTORY_FAILED: timeout" := by
  refine ⟨?_, by decide, by decide⟩
  intro m1 m2 h1 h2 hc
  unfold hashError
  rw [if_neg h1, if_neg h2, hc]

/-- C9 witness: two messages with the leading code PAYMENT_FAILED but
different detail text receive the same grouping hash. -/
theorem hashError_groups_by_code_witness :
    hashError "PAYMENT_FAILED: timeout after 30s" = hashError "PAYMENT_FAILED: card declined" :=
  hashError_groups_by_code.1 "PAYMENT_FAILED: timeout after 30s" "PAYMENT_FAILED: card declined"
    (by decide) (by decide) (by decide)

/-- C9 counterexample: it is not true that any two messages with different
leading code tokens hash differently — the 64-bit truncated digest takes at
most `256^8` values, so among the infinitely many distinct codes `"A"`,
`"AA"`, `"AAA"`, ... two must collide. -/
theorem hashError_codes_collide_cx :
    ¬(∀ m1 m2 : String, errorCodeOf m1 ≠ errorCodeOf m2 → hashError m1 ≠ hashError m2) := by
  intro hclaim
  obtain ⟨i, j, hne, heq⟩ := codeDigest_collision
  have hcodes : errorCodeOf (aCode i) ≠ errorCodeOf (aCode j) := by
    rw [errorCodeOf_aCode, errorCodeOf_aCode]
    exact aCode_ne_of_ne hne
  exact hclaim (aCode i) (aCode j) hcodes
    (by rw [hashError_aCode, hashError_aCode, heq])

end TaskOrch
